import Mathlib

/-!
Shallow embedding of `CV/video_blink_detection.py` (ochilab/labo-utils).

The embedded parts:
* `calculate_eye_aspect_ratio` — the EAR formula over six 2-D landmark
  points, using the Euclidean norm (lines 46-60 of the source).
* `format_timestamp` — millisecond → (hours, minutes, seconds, ms)
  decomposition via Python's `timedelta` normalisation (lines 62-69).
* The per-frame blink-detection loop body of `main` (lines 141-217),
  modelled as a step function `processFrame` on an explicit `LoopState`,
  folded over a list of per-frame inputs.  A frame's input is the
  timestamp reported by the decoder together with either `none`
  (no face detected) or `some (left_ear, right_ear)` — the two values
  produced by the external landmark detector plus EAR calculator.
  EAR values are modelled as rationals so that the threshold
  comparisons are decidable.
* The blink-rate report line of `main` (lines 235-237 and 259-263).

Python floats are modelled as exact rationals (for the loop, whose only
arithmetic is addition, halving, averaging and comparisons) and as reals
(for the EAR formula, which needs square roots).
-/

/-- A normalised facial landmark point, as produced by the detector:
only the `x` and `y` fields are read by the EAR computation. -/
structure LandmarkPoint where
  x : ℝ
  y : ℝ

/-- Euclidean distance between two landmark points, as computed by
`np.linalg.norm` on the 2-vector of coordinate differences. -/
noncomputable def landmarkDist (p q : LandmarkPoint) : ℝ :=
  Real.sqrt ((p.x - q.x) ^ 2 + (p.y - q.y) ^ 2)

/-- Lines 46-60: `calculate_eye_aspect_ratio(eye_landmarks)`.
The six points arrive in the fixed anatomical order; positions 1,5 and
2,4 give the two vertical distances, positions 0,3 the horizontal one.
The division is unguarded, exactly as in the source; Lean's convention
`x / 0 = 0` stands in for the unguarded float division (which in the
source produces `inf` when `horizontal == 0`). -/
noncomputable def calculate_eye_aspect_ratio (eye_landmarks : Fin 6 → LandmarkPoint) : ℝ :=
  let vertical_1 := landmarkDist (eye_landmarks 1) (eye_landmarks 5)
  let vertical_2 := landmarkDist (eye_landmarks 2) (eye_landmarks 4)
  let horizontal := landmarkDist (eye_landmarks 0) (eye_landmarks 3)
  (vertical_1 + vertical_2) / (2 * horizontal)

/-- Uniform scaling of all six landmark points by a factor `k`. -/
def scaleEye (k : ℝ) (e : Fin 6 → LandmarkPoint) : Fin 6 → LandmarkPoint :=
  fun i => ⟨k * (e i).x, k * (e i).y⟩

/-- Lines 62-69: `format_timestamp(milliseconds)`.
Python's `timedelta(milliseconds=t)` normalises to days/seconds/
microseconds: `td.seconds = (t // 1000) % 86400` and
`td.microseconds = (t % 1000) * 1000` for a non-negative integer `t`.
The function returns the rendered `(hours, minutes, seconds, ms)`
quadruple of the `HH:MM:SS.mmm` string. -/
def format_timestamp (milliseconds : ℕ) : ℕ × ℕ × ℕ × ℕ :=
  let tdSeconds := (milliseconds / 1000) % 86400
  let tdMicroseconds := (milliseconds % 1000) * 1000
  (tdSeconds / 3600, (tdSeconds % 3600) / 60, tdSeconds % 60, tdMicroseconds / 1000)

/-- Line 126: `EAR_THRESHOLD = 0.2`. -/
def EAR_THRESHOLD : ℚ := 2 / 10

/-- Line 127: `CONSECUTIVE_FRAMES = 2` (the spec's `MIN_RUN`). -/
def CONSECUTIVE_FRAMES : ℕ := 2

/-- One blink record, as assembled on lines 193-201 (`blink_record`).
The source stores the formatted timestamp string; here the raw
`timestamp_ms` fed to `format_timestamp` is kept. -/
structure BlinkRecord where
  blink_number : ℕ
  timestamp_ms : ℚ
  frame : ℕ
  left_ear : ℚ
  right_ear : ℚ
  avg_ear : ℚ
  duration_frames : ℕ
deriving DecidableEq

/-- The per-frame input consumed by one loop iteration: the decoder
timestamp (line 158) and, when `results.face_landmarks` is non-empty,
the pair `(left_ear, right_ear)` computed on lines 172-173. -/
structure FrameInput where
  timestamp_ms : ℚ
  face : Option (ℚ × ℚ)
deriving DecidableEq

/-- One CSV data row (lines 205-212): blink number, raw timestamp,
start frame, and the three EAR averages after `"%.4f"` rounding. -/
structure CsvRow where
  blink_number : ℕ
  timestamp_ms : ℚ
  frame : ℕ
  left_ear : ℚ
  right_ear : ℚ
  avg_ear : ℚ
deriving DecidableEq

/-- The mutable state of the processing loop (lines 129-137):
`current_frame`, `frame_counter`, `blink_start_frame`,
`blink_ear_values`, `total_blinks`, `blink_records`, `ear_values`,
plus the rows written to the CSV file so far. -/
structure LoopState where
  current_frame : ℕ
  frame_counter : ℕ
  blink_start_frame : Option ℕ
  blink_ear_values : List (ℚ × ℚ × ℚ)
  total_blinks : ℕ
  blink_records : List BlinkRecord
  ear_values : List ℚ
  csv_rows : List CsvRow
deriving DecidableEq

/-- `np.mean` over a list of rationals. -/
def listMean (xs : List ℚ) : ℚ := xs.sum / (xs.length : ℚ)

/-- Rounding to four decimal places, modelling the `f"{v:.4f}"`
formatting of the CSV EAR fields. -/
def round4 (q : ℚ) : ℚ := (round (q * 10000) : ℤ) / 10000

/-- Lines 141-217: the body of the `while` loop for one decoded frame.
`current_frame` is incremented for every frame (line 146); everything
else happens only under `if results.face_landmarks:` (line 164). -/
def processFrame (st : LoopState) (inp : FrameInput) : LoopState :=
  let st := { st with current_frame := st.current_frame + 1 }
  match inp.face with
  | none => st
  | some (left_ear, right_ear) =>
    let ear := (left_ear + right_ear) / 2
    let st := { st with ear_values := st.ear_values ++ [ear] }
    if ear < EAR_THRESHOLD then
      -- lines 178-182: extend (or open) the below-threshold run
      { st with
        frame_counter := st.frame_counter + 1
        blink_start_frame := some (st.blink_start_frame.getD st.current_frame)
        blink_ear_values := st.blink_ear_values ++ [(left_ear, right_ear, ear)] }
    else
      -- lines 183-217: close the run, emitting a record when it is long enough
      let st :=
        if CONSECUTIVE_FRAMES ≤ st.frame_counter then
          let avg_left_ear := listMean (st.blink_ear_values.map (fun v => v.1))
          let avg_right_ear := listMean (st.blink_ear_values.map (fun v => v.2.1))
          let avg_ear := listMean (st.blink_ear_values.map (fun v => v.2.2))
          -- `blink_start_frame` is never `None` here in the source
          -- (the counter is positive only while a start frame is set);
          -- `getD 0` is the total-function rendering of that access.
          let startFrame := st.blink_start_frame.getD 0
          { st with
            total_blinks := st.total_blinks + 1
            blink_records := st.blink_records ++
              [⟨st.total_blinks + 1, inp.timestamp_ms, startFrame,
                avg_left_ear, avg_right_ear, avg_ear, st.frame_counter⟩]
            csv_rows := st.csv_rows ++
              [⟨st.total_blinks + 1, inp.timestamp_ms, startFrame,
                round4 avg_left_ear, round4 avg_right_ear, round4 avg_ear⟩] }
        else st
      { st with
        frame_counter := 0
        blink_start_frame := none
        blink_ear_values := [] }

/-- The loop state before the first frame (lines 129-137). -/
def initState : LoopState := ⟨0, 0, none, [], 0, [], [], []⟩

/-- Folding the loop body over a list of frames from a given state. -/
def processFrames (st : LoopState) (inputs : List FrameInput) : LoopState :=
  inputs.foldl processFrame st

/-- The whole run of `main`'s loop over a finite stream of frames. -/
def runBlinkLoop (inputs : List FrameInput) : LoopState :=
  processFrames initState inputs

/-- A frame input that is fed to the run logic with a below-threshold
average EAR (line 178's condition true). -/
def isBelowDetected (inp : FrameInput) : Bool :=
  match inp.face with
  | some (l, r) => decide ((l + r) / 2 < EAR_THRESHOLD)
  | none => false

/-- A frame input with a detected face whose average EAR is at or above
the threshold (line 178's condition false with a face present). -/
def isAboveDetected (inp : FrameInput) : Bool :=
  match inp.face with
  | some (l, r) => decide (EAR_THRESHOLD ≤ (l + r) / 2)
  | none => false

/-- The machine is in the spec's `OPEN` phase: no run in progress. -/
def machineOpen (st : LoopState) : Prop :=
  st.frame_counter = 0 ∧ st.blink_start_frame = none ∧ st.blink_ear_values = []

instance (st : LoopState) : Decidable (machineOpen st) := by
  unfold machineOpen; infer_instance

/-- Line 114: the CSV header row as written by the source. -/
def csvHeader : List String :=
  ["瞬き番号", "タイムスタンプ", "フレーム番号", "左目EAR", "右目EAR", "平均EAR"]

/-- Lines 235-237 and 259-263: the blink-rate figure is computed and
written only when `total_blinks > 0`; otherwise no rate is produced.
`duration` is the video duration in seconds. -/
def blinkRateLine (total_blinks : ℕ) (duration : ℚ) : Option ℚ :=
  if 0 < total_blinks then some ((total_blinks : ℚ) / (duration / 60)) else none

/-- The six-point landmark set used as a concrete witness for scale
invariance: horizontal distance 1, vertical distances 1 and 2. -/
def wEye : Fin 6 → LandmarkPoint
  | 0 => ⟨0, 0⟩
  | 1 => ⟨0, 0⟩
  | 2 => ⟨0, 0⟩
  | 3 => ⟨1, 0⟩
  | 4 => ⟨0, 2⟩
  | 5 => ⟨0, 1⟩

/-- A degenerate landmark set: points 0 and 3 coincide, so the
horizontal eye-corner distance is zero, while the vertical distances
are 3 and 4. -/
def degEye : Fin 6 → LandmarkPoint
  | 0 => ⟨0, 0⟩
  | 1 => ⟨0, 0⟩
  | 2 => ⟨0, 0⟩
  | 3 => ⟨0, 0⟩
  | 4 => ⟨0, 4⟩
  | 5 => ⟨0, 3⟩

/-- The running invariant of the loop state tying the blink counter,
the record numbering, the minimum-run filter and the CSV rows
together. -/
def loopInv (st : LoopState) : Prop :=
  st.total_blinks = st.blink_records.length ∧
  st.blink_records.map BlinkRecord.blink_number =
    List.range' 1 st.blink_records.length ∧
  (∀ rcd ∈ st.blink_records, CONSECUTIVE_FRAMES ≤ rcd.duration_frames) ∧
  st.csv_rows.length = st.blink_records.length ∧
  (∀ row ∈ st.csv_rows,
    row.left_ear.den ∣ 10000 ∧ row.right_ear.den ∣ 10000 ∧ row.avg_ear.den ∣ 10000)

theorem processFrame_noface (st : LoopState) (inp : FrameInput)
    (hface : inp.face = none) :
    processFrame st inp = { st with current_frame := st.current_frame + 1 } := by
  simp only [processFrame, hface]

theorem processFrame_below (st : LoopState) (inp : FrameInput) (l r : ℚ)
    (hface : inp.face = some (l, r)) (h : (l + r) / 2 < EAR_THRESHOLD) :
    processFrame st inp =
      { st with
        current_frame := st.current_frame + 1
        ear_values := st.ear_values ++ [(l + r) / 2]
        frame_counter := st.frame_counter + 1
        blink_start_frame := some (st.blink_start_frame.getD (st.current_frame + 1))
        blink_ear_values := st.blink_ear_values ++ [(l, r, (l + r) / 2)] } := by
  simp only [processFrame, hface]
  rw [if_pos h]

theorem processFrame_above_emit (st : LoopState) (inp : FrameInput) (l r : ℚ)
    (hface : inp.face = some (l, r)) (h : ¬ (l + r) / 2 < EAR_THRESHOLD)
    (hc : CONSECUTIVE_FRAMES ≤ st.frame_counter) :
    processFrame st inp =
      { st with
        current_frame := st.current_frame + 1
        ear_values := st.ear_values ++ [(l + r) / 2]
        frame_counter := 0
        blink_start_frame := none
        blink_ear_values := []
        total_blinks := st.total_blinks + 1
        blink_records := st.blink_records ++
          [⟨st.total_blinks + 1, inp.timestamp_ms, st.blink_start_frame.getD 0,
            listMean (st.blink_ear_values.map fun v => v.1),
            listMean (st.blink_ear_values.map fun v => v.2.1),
            listMean (st.blink_ear_values.map fun v => v.2.2),
            st.frame_counter⟩]
        csv_rows := st.csv_rows ++
          [⟨st.total_blinks + 1, inp.timestamp_ms, st.blink_start_frame.getD 0,
            round4 (listMean (st.blink_ear_values.map fun v => v.1)),
            round4 (listMean (st.blink_ear_values.map fun v => v.2.1)),
            round4 (listMean (st.blink_ear_values.map fun v => v.2.2))⟩] } := by
  simp only [processFrame, hface]
  rw [if_neg h, if_pos hc]

theorem processFrame_above_skip (st : LoopState) (inp : FrameInput) (l r : ℚ)
    (hface : inp.face = some (l, r)) (h : ¬ (l + r) / 2 < EAR_THRESHOLD)
    (hc : ¬ CONSECUTIVE_FRAMES ≤ st.frame_counter) :
    processFrame st inp =
      { st with
        current_frame := st.current_frame + 1
        ear_values := st.ear_values ++ [(l + r) / 2]
        frame_counter := 0
        blink_start_frame := none
        blink_ear_values := [] } := by
  simp only [processFrame, hface]
  rw [if_neg h, if_neg hc]

theorem isBelowDetected_iff (inp : FrameInput) :
    isBelowDetected inp = true ↔
      ∃ l r, inp.face = some (l, r) ∧ (l + r) / 2 < EAR_THRESHOLD := by
  unfold isBelowDetected
  rcases hf : inp.face with _ | ⟨l, r⟩
  · simp [hf]
  · simp only [hf, decide_eq_true_eq, Option.some.injEq, Prod.mk.injEq]
    exact ⟨fun h => ⟨l, r, ⟨rfl, rfl⟩, h⟩, by rintro ⟨a, b, ⟨rfl, rfl⟩, h⟩; exact h⟩

theorem isAboveDetected_iff (inp : FrameInput) :
    isAboveDetected inp = true ↔
      ∃ l r, inp.face = some (l, r) ∧ EAR_THRESHOLD ≤ (l + r) / 2 := by
  unfold isAboveDetected
  rcases hf : inp.face with _ | ⟨l, r⟩
  · simp [hf]
  · simp only [hf, decide_eq_true_eq, Option.some.injEq, Prod.mk.injEq]
    exact ⟨fun h => ⟨l, r, ⟨rfl, rfl⟩, h⟩, by rintro ⟨a, b, ⟨rfl, rfl⟩, h⟩; exact h⟩

theorem processFrames_nil (st : LoopState) : processFrames st [] = st := rfl

theorem processFrames_cons (st : LoopState) (inp : FrameInput) (rest : List FrameInput) :
    processFrames st (inp :: rest) = processFrames (processFrame st inp) rest := rfl

theorem processFrames_append (st : LoopState) (xs ys : List FrameInput) :
    processFrames st (xs ++ ys) = processFrames (processFrames st xs) ys := by
  simp [processFrames, List.foldl_append]

/-- Processing a run of below-threshold detected frames only extends the
counter; no record is emitted and the blink total is unchanged. -/
theorem processFrames_below_run (run : List FrameInput) :
    ∀ st : LoopState, (∀ inp ∈ run, isBelowDetected inp = true) →
      (processFrames st run).frame_counter = st.frame_counter + run.length ∧
      (processFrames st run).blink_records = st.blink_records ∧
      (processFrames st run).total_blinks = st.total_blinks := by
  induction run with
  | nil => intro st _; simp [processFrames_nil]
  | cons inp rest ih =>
    intro st h
    obtain ⟨l, r, hface, hlt⟩ := (isBelowDetected_iff inp).mp (h inp (by simp))
    have hstep := processFrame_below st inp l r hface hlt
    have htail := ih (processFrame st inp) (fun x hx => h x (by simp [hx]))
    rw [processFrames_cons]
    refine ⟨?_, ?_, ?_⟩
    · rw [htail.1, hstep]; simp; omega
    · rw [htail.2.1, hstep]
    · rw [htail.2.2, hstep]

/-- A frame whose average EAR is not at or above the threshold (a
below-threshold sample or a frame with no detected face) never emits a
blink record. -/
theorem processFrame_no_emit (st : LoopState) (inp : FrameInput)
    (h : isAboveDetected inp = false) :
    (processFrame st inp).blink_records = st.blink_records := by
  rcases hf : inp.face with _ | ⟨l, r⟩
  · rw [processFrame_noface st inp hf]
  · have hlt : (l + r) / 2 < EAR_THRESHOLD := by
      by_contra hge
      have : isAboveDetected inp = true :=
        (isAboveDetected_iff inp).mpr ⟨l, r, hf, not_lt.mp hge⟩
      simp [this] at h
    rw [processFrame_below st inp l r hf hlt]

theorem processFrames_no_emit (run : List FrameInput) :
    ∀ st : LoopState, (∀ inp ∈ run, isAboveDetected inp = false) →
      (processFrames st run).blink_records = st.blink_records := by
  induction run with
  | nil => intro st _; rw [processFrames_nil]
  | cons inp rest ih =>
    intro st h
    rw [processFrames_cons, ih (processFrame st inp) (fun x hx => h x (by simp [hx])),
      processFrame_no_emit st inp (h inp (by simp))]

/-- Any above-threshold detected frame leaves the machine in the `OPEN`
phase, whether or not it emitted a record. -/
theorem processFrame_above_open (st : LoopState) (inp : FrameInput)
    (h : isAboveDetected inp = true) : machineOpen (processFrame st inp) := by
  obtain ⟨l, r, hface, hge⟩ := (isAboveDetected_iff inp).mp h
  have hlt : ¬ (l + r) / 2 < EAR_THRESHOLD := not_lt.mpr hge
  by_cases hc : CONSECUTIVE_FRAMES ≤ st.frame_counter
  · rw [processFrame_above_emit st inp l r hface hlt hc]
    exact ⟨rfl, rfl, rfl⟩
  · rw [processFrame_above_skip st inp l r hface hlt hc]
    exact ⟨rfl, rfl, rfl⟩

theorem round4_den_dvd (q : ℚ) : (round4 q).den ∣ 10000 := by
  unfold round4
  have h := Rat.den_dvd (round (q * 10000)) 10000
  rw [Rat.divInt_eq_div] at h
  exact_mod_cast h

theorem loopInv_init : loopInv initState := by
  refine ⟨rfl, rfl, ?_, rfl, ?_⟩ <;> simp [initState]

/-- One loop step preserves the running invariant. -/
theorem loopInv_step (st : LoopState) (inp : FrameInput) (h : loopInv st) :
    loopInv (processFrame st inp) := by
  obtain ⟨hlen, hnum, hdur, hcsv, hrow⟩ := h
  rcases hf : inp.face with _ | ⟨l, r⟩
  · rw [processFrame_noface st inp hf]; exact ⟨hlen, hnum, hdur, hcsv, hrow⟩
  · by_cases hlt : (l + r) / 2 < EAR_THRESHOLD
    · rw [processFrame_below st inp l r hf hlt]
      exact ⟨hlen, hnum, hdur, hcsv, hrow⟩
    · by_cases hc : CONSECUTIVE_FRAMES ≤ st.frame_counter
      · rw [processFrame_above_emit st inp l r hf hlt hc]
        refine ⟨?_, ?_, ?_, ?_, ?_⟩
        · simp [hlen]
        · simp only [List.map_append, List.length_append, List.map_cons, List.map_nil,
            List.length_cons, List.length_nil]
          rw [hnum, hlen]
          have hr := @List.range'_concat 1 1 st.blink_records.length
          simp only [one_mul] at hr
          rw [hr]
          simp [Nat.add_comm]
        · intro rcd hrcd
          rcases List.mem_append.mp hrcd with hin | hin
          · exact hdur rcd hin
          · simp at hin
            rw [hin]
            exact hc
        · simp [hcsv]
        · intro row hrowm
          rcases List.mem_append.mp hrowm with hin | hin
          · exact hrow row hin
          · simp at hin
            rw [hin]
            exact ⟨round4_den_dvd _, round4_den_dvd _, round4_den_dvd _⟩
      · rw [processFrame_above_skip st inp l r hf hlt hc]
        exact ⟨hlen, hnum, hdur, hcsv, hrow⟩

theorem loopInv_processFrames (run : List FrameInput) :
    ∀ st : LoopState, loopInv st → loopInv (processFrames st run) := by
  induction run with
  | nil => intro st h; rwa [processFrames_nil]
  | cons inp rest ih =>
    intro st h
    rw [processFrames_cons]
    exact ih (processFrame st inp) (loopInv_step st inp h)

theorem loopInv_run (inputs : List FrameInput) : loopInv (runBlinkLoop inputs) :=
  loopInv_processFrames inputs initState loopInv_init

/-- Scaling both points by a non-negative factor scales the Euclidean
distance by the same factor. -/
theorem landmarkDist_scale (k : ℝ) (hk : 0 ≤ k) (p q : LandmarkPoint) :
    landmarkDist ⟨k * p.x, k * p.y⟩ ⟨k * q.x, k * q.y⟩ = k * landmarkDist p q := by
  unfold landmarkDist
  rw [show (k * p.x - k * q.x) ^ 2 + (k * p.y - k * q.y) ^ 2
      = k ^ 2 * ((p.x - q.x) ^ 2 + (p.y - q.y) ^ 2) by ring,
    Real.sqrt_mul (sq_nonneg k), Real.sqrt_sq hk]

/-- C7: for every landmark set with nonzero horizontal distance and
every scalar `k > 0`, computing the EAR on the uniformly scaled set
yields the same value as on the original set. -/
theorem ear_scale_invariant (e : Fin 6 → LandmarkPoint) (k : ℝ)
    (hk : 0 < k) (hh : landmarkDist (e 0) (e 3) ≠ 0) :
    calculate_eye_aspect_ratio (scaleEye k e) = calculate_eye_aspect_ratio e := by
  simp only [calculate_eye_aspect_ratio, scaleEye]
  rw [landmarkDist_scale k hk.le, landmarkDist_scale k hk.le, landmarkDist_scale k hk.le,
    show 2 * (k * landmarkDist (e 0) (e 3)) = k * (2 * landmarkDist (e 0) (e 3)) by ring,
    ← mul_add, mul_div_mul_left _ _ (ne_of_gt hk)]

theorem ear_scale_invariant_witness :
    (0 : ℝ) < 2 ∧ landmarkDist (wEye 0) (wEye 3) ≠ 0 ∧
    calculate_eye_aspect_ratio (scaleEye 2 wEye) = calculate_eye_aspect_ratio wEye := by
  have hh : landmarkDist (wEye 0) (wEye 3) ≠ 0 := by
    unfold landmarkDist wEye
    rw [Real.sqrt_ne_zero']
    norm_num
  exact ⟨by norm_num, hh, ear_scale_invariant wEye 2 (by norm_num) hh⟩

/-- C1: the source performs the EAR division unguarded.  At the
degenerate landmark set `degEye`, whose eye corners (points 0 and 3)
coincide, the horizontal distance is zero and the function still
computes `(3 + 4) / (2 * 0)` — no degenerate-configuration check and no
invalid-sample outcome exist in the code (in Python the division
produces `inf` rather than being caught). -/
theorem degenerate_horizontal_unguarded :
    landmarkDist (degEye 0) (degEye 3) = 0 ∧
    calculate_eye_aspect_ratio degEye = (3 + 4) / (2 * 0) := by
  have h03 : landmarkDist (degEye 0) (degEye 3) = 0 := by
    unfold landmarkDist degEye
    norm_num
  have h15 : landmarkDist (degEye 1) (degEye 5) = 3 := by
    unfold landmarkDist degEye
    rw [show ((0 : ℝ) - 0) ^ 2 + (0 - 3) ^ 2 = 3 ^ 2 by norm_num,
      Real.sqrt_sq (by norm_num)]
  have h24 : landmarkDist (degEye 2) (degEye 4) = 4 := by
    unfold landmarkDist degEye
    rw [show ((0 : ℝ) - 0) ^ 2 + (0 - 4) ^ 2 = 4 ^ 2 by norm_num,
      Real.sqrt_sq (by norm_num)]
  refine ⟨h03, ?_⟩
  simp only [calculate_eye_aspect_ratio]
  rw [h15, h24, h03]

/-- C6: a frame with no detected face leaves every component of the
blink machine's state (counter, start frame, accumulator, records,
totals, sampled EARs, CSV rows) unchanged and only increments the frame
counter `current_frame`. -/
theorem noface_frame_state_unchanged (st : LoopState) (ts : ℚ) :
    processFrame st ⟨ts, none⟩ = { st with current_frame := st.current_frame + 1 } :=
  processFrame_noface st ⟨ts, none⟩ rfl

/-- C5: a below-threshold run (possibly interleaved with no-face
frames) that never returns to or above the threshold before the end of
the stream emits no blink record, regardless of its length. -/
theorem unterminated_run_discarded (pre run : List FrameInput)
    (h : ∀ inp ∈ run, isAboveDetected inp = false) :
    (runBlinkLoop (pre ++ run)).blink_records = (runBlinkLoop pre).blink_records := by
  unfold runBlinkLoop
  rw [processFrames_append]
  exact processFrames_no_emit run (processFrames initState pre) h

theorem unterminated_run_discarded_witness :
    (∀ inp ∈ ([⟨2, some (1/10, 1/10)⟩, ⟨3, some (15/100, 15/100)⟩, ⟨4, none⟩] :
        List FrameInput), isAboveDetected inp = false) ∧
    (runBlinkLoop ([⟨1, some (3/10, 3/10)⟩] ++
        [⟨2, some (1/10, 1/10)⟩, ⟨3, some (15/100, 15/100)⟩, ⟨4, none⟩])).blink_records
      = (runBlinkLoop [⟨1, some (3/10, 3/10)⟩]).blink_records := by
  have h : ∀ inp ∈ ([⟨2, some (1/10, 1/10)⟩, ⟨3, some (15/100, 15/100)⟩, ⟨4, none⟩] :
      List FrameInput), isAboveDetected inp = false := by
    intro inp hinp
    fin_cases hinp <;> norm_num [isAboveDetected, EAR_THRESHOLD]
  exact ⟨h, unterminated_run_discarded _ _ h⟩

/-- C2: from the `OPEN` phase (which holds initially and after every
above-threshold detected frame), a maximal run of `L` consecutive
below-threshold detected frames followed by an above-threshold detected
frame emits exactly one record of duration `L` when `L ≥ 2` and no
record when `L < 2`; moreover every record ever emitted by the loop has
`duration_frames ≥ CONSECUTIVE_FRAMES`. -/
theorem blink_min_run_filter (st : LoopState) (run : List FrameInput)
    (reopen : FrameInput) (hopen : machineOpen st)
    (hrun : ∀ inp ∈ run, isBelowDetected inp = true)
    (hreopen : isAboveDetected reopen = true) :
    (CONSECUTIVE_FRAMES ≤ run.length →
      ∃ rcd, (processFrames st (run ++ [reopen])).blink_records
          = st.blink_records ++ [rcd] ∧ rcd.duration_frames = run.length) ∧
    (run.length < CONSECUTIVE_FRAMES →
      (processFrames st (run ++ [reopen])).blink_records = st.blink_records) ∧
    machineOpen initState ∧
    (∀ st' : LoopState, ∀ inp : FrameInput, isAboveDetected inp = true →
      machineOpen (processFrame st' inp)) ∧
    (∀ inputs : List FrameInput, ∀ rcd ∈ (runBlinkLoop inputs).blink_records,
      CONSECUTIVE_FRAMES ≤ rcd.duration_frames) := by
  obtain ⟨l, r, hface, hge⟩ := (isAboveDetected_iff reopen).mp hreopen
  have hnlt : ¬ (l + r) / 2 < EAR_THRESHOLD := not_lt.mpr hge
  have hb := processFrames_below_run run st hrun
  have hcnt : (processFrames st run).frame_counter = run.length := by
    rw [hb.1, hopen.1]; omega
  refine ⟨?_, ?_, ⟨rfl, rfl, rfl⟩, processFrame_above_open, ?_⟩
  · intro hL
    rw [processFrames_append,
      show processFrames (processFrames st run) [reopen]
          = processFrame (processFrames st run) reopen from rfl,
      processFrame_above_emit (processFrames st run) reopen l r hface hnlt
        (by rw [hcnt]; exact hL)]
    exact ⟨⟨(processFrames st run).total_blinks + 1, reopen.timestamp_ms,
      (processFrames st run).blink_start_frame.getD 0,
      listMean ((processFrames st run).blink_ear_values.map fun v => v.1),
      listMean ((processFrames st run).blink_ear_values.map fun v => v.2.1),
      listMean ((processFrames st run).blink_ear_values.map fun v => v.2.2),
      (processFrames st run).frame_counter⟩, by simp [hb.2.1], hcnt⟩
  · intro hL
    rw [processFrames_append,
      show processFrames (processFrames st run) [reopen]
          = processFrame (processFrames st run) reopen from rfl,
      processFrame_above_skip (processFrames st run) reopen l r hface hnlt
        (by rw [hcnt]; omega)]
    simp [hb.2.1]
  · intro inputs rcd hrcd
    exact (loopInv_run inputs).2.2.1 rcd hrcd

theorem blink_min_run_filter_witness :
    machineOpen initState ∧
    (∀ inp ∈ ([⟨1, some (1/10, 1/10)⟩, ⟨2, some (1/10, 1/10)⟩] : List FrameInput),
      isBelowDetected inp = true) ∧
    isAboveDetected ⟨3, some (3/10, 3/10)⟩ = true ∧
    (∃ rcd, (processFrames initState ([⟨1, some (1/10, 1/10)⟩, ⟨2, some (1/10, 1/10)⟩]
          ++ [⟨3, some (3/10, 3/10)⟩])).blink_records
        = initState.blink_records ++ [rcd] ∧ rcd.duration_frames = 2) := by
  have hopen : machineOpen initState := ⟨rfl, rfl, rfl⟩
  have hrun : ∀ inp ∈ ([⟨1, some (1/10, 1/10)⟩, ⟨2, some (1/10, 1/10)⟩] :
      List FrameInput), isBelowDetected inp = true := by
    intro inp hinp
    fin_cases hinp <;> norm_num [isBelowDetected, EAR_THRESHOLD]
  have hreopen : isAboveDetected ⟨3, some (3/10, 3/10)⟩ = true := by
    norm_num [isAboveDetected, EAR_THRESHOLD]
  refine ⟨hopen, hrun, hreopen, ?_⟩
  have h := (blink_min_run_filter initState
    [⟨1, some (1/10, 1/10)⟩, ⟨2, some (1/10, 1/10)⟩] ⟨3, some (3/10, 3/10)⟩
    hopen hrun hreopen).1 (by norm_num [CONSECUTIVE_FRAMES])
  simpa using h

/-- C3: the spec's concrete scenario.  For average EARs
`[0.30, 0.30, 0.15, 0.14, 0.30, 0.30]` on frames 1..6 (every frame
face-detected, arbitrary timestamps), the loop emits exactly one blink
record: number 1, start frame 3, duration 2 frames, stamped with frame
5's timestamp, and event-average EAR `0.145`. -/
theorem blink_concrete_scenario (t1 t2 t3 t4 t5 t6 : ℚ) :
    (runBlinkLoop [⟨t1, some (3/10, 3/10)⟩, ⟨t2, some (3/10, 3/10)⟩,
       ⟨t3, some (3/20, 3/20)⟩, ⟨t4, some (7/50, 7/50)⟩,
       ⟨t5, some (3/10, 3/10)⟩, ⟨t6, some (3/10, 3/10)⟩]).blink_records
      = [⟨1, t5, 3, 29/200, 29/200, 29/200, 2⟩] := by
  norm_num [runBlinkLoop, processFrames, processFrame, initState, listMean,
    EAR_THRESHOLD, CONSECUTIVE_FRAMES, List.foldl]

/-- C4: for every input sequence, the `blink_number` fields of the
emitted records, in emission order, are exactly `1..N` where `N` is the
number of records — no repeats, no gaps. -/
theorem blink_numbering_sequential (inputs : List FrameInput) :
    (runBlinkLoop inputs).blink_records.map BlinkRecord.blink_number =
      List.range' 1 (runBlinkLoop inputs).blink_records.length :=
  (loopInv_run inputs).2.1

/-- C8 counterexample: when `total_blinks = 0` the source produces no
rate at all — the rate line is skipped, not reported as `0`. -/
theorem zero_blinks_rate_not_reported :
    blinkRateLine 0 60 = none ∧ blinkRateLine 0 60 ≠ some 0 := by
  refine ⟨rfl, ?_⟩
  intro h
  simp [blinkRateLine] at h

/-- C8 (amended): when `total_blinks > 0` the reported rate is
`total_blinks / (duration / 60)`; when `total_blinks = 0` no rate line
is produced at all (and so no division is performed). -/
theorem blink_rate_line_behavior (n : ℕ) (d : ℚ) :
    (0 < n → blinkRateLine n d = some ((n : ℚ) / (d / 60))) ∧
    (n = 0 → blinkRateLine n d = none) := by
  constructor
  · intro h
    unfold blinkRateLine
    rw [if_pos h]
  · intro h
    subst h
    rfl

theorem blink_rate_line_behavior_witness :
    0 < 1 ∧ blinkRateLine 1 60 = some ((1 : ℚ) / (60 / 60)) ∧
    blinkRateLine 0 60 = none :=
  ⟨Nat.one_pos, (blink_rate_line_behavior 1 60).1 Nat.one_pos,
    (blink_rate_line_behavior 0 60).2 rfl⟩

/-- C9 counterexample: the header row the source writes is not the
English `blink_number, timestamp, frame, left_ear, right_ear, avg_ear`
row the claim describes (the source writes Japanese labels). -/
theorem csv_header_not_english :
    csvHeader ≠ ["blink_number", "timestamp", "frame", "left_ear",
      "right_ear", "avg_ear"] := by
  simp [csvHeader]

/-- C9 (amended): the CSV log starts with the Japanese header row
(blink number, timestamp, frame number, left-eye EAR, right-eye EAR,
average EAR), contains exactly one data row per emitted blink record,
and each row's three EAR fields are rounded to four decimal places
(their denominators divide 10000). -/
theorem csv_log_shape :
    csvHeader = ["瞬き番号", "タイムスタンプ", "フレーム番号", "左目EAR",
      "右目EAR", "平均EAR"] ∧
    ∀ inputs : List FrameInput,
      (runBlinkLoop inputs).csv_rows.length = (runBlinkLoop inputs).blink_records.length ∧
      ∀ row ∈ (runBlinkLoop inputs).csv_rows,
        row.left_ear.den ∣ 10000 ∧ row.right_ear.den ∣ 10000 ∧ row.avg_ear.den ∣ 10000 :=
  ⟨rfl, fun inputs =>
    ⟨(loopInv_run inputs).2.2.2.1, (loopInv_run inputs).2.2.2.2⟩⟩

theorem csv_log_shape_witness :
    (runBlinkLoop [⟨10, some (3/10, 3/10)⟩, ⟨20, some (3/10, 3/10)⟩,
        ⟨30, some (3/20, 3/20)⟩, ⟨40, some (7/50, 7/50)⟩,
        ⟨50, some (3/10, 3/10)⟩, ⟨60, some (3/10, 3/10)⟩]).csv_rows.length
      = (runBlinkLoop [⟨10, some (3/10, 3/10)⟩, ⟨20, some (3/10, 3/10)⟩,
        ⟨30, some (3/20, 3/20)⟩, ⟨40, some (7/50, 7/50)⟩,
        ⟨50, some (3/10, 3/10)⟩, ⟨60, some (3/10, 3/10)⟩]).blink_records.length ∧
    (⟨1, 50, 3, 29/200, 29/200, 29/200⟩ : CsvRow) ∈
      (runBlinkLoop [⟨10, some (3/10, 3/10)⟩, ⟨20, some (3/10, 3/10)⟩,
        ⟨30, some (3/20, 3/20)⟩, ⟨40, some (7/50, 7/50)⟩,
        ⟨50, some (3/10, 3/10)⟩, ⟨60, some (3/10, 3/10)⟩]).csv_rows ∧
    ((29 : ℚ)/200).den ∣ 10000 := by
  have hrows : (runBlinkLoop [⟨10, some (3/10, 3/10)⟩, ⟨20, some (3/10, 3/10)⟩,
      ⟨30, some (3/20, 3/20)⟩, ⟨40, some (7/50, 7/50)⟩,
      ⟨50, some (3/10, 3/10)⟩, ⟨60, some (3/10, 3/10)⟩]).csv_rows
      = [⟨1, 50, 3, 29/200, 29/200, 29/200⟩] := by
    norm_num [runBlinkLoop, processFrames, processFrame, initState, listMean,
      round4, EAR_THRESHOLD, CONSECUTIVE_FRAMES, List.foldl]
  have hmem : (⟨1, 50, 3, 29/200, 29/200, 29/200⟩ : CsvRow) ∈
      (runBlinkLoop [⟨10, some (3/10, 3/10)⟩, ⟨20, some (3/10, 3/10)⟩,
        ⟨30, some (3/20, 3/20)⟩, ⟨40, some (7/50, 7/50)⟩,
        ⟨50, some (3/10, 3/10)⟩, ⟨60, some (3/10, 3/10)⟩]).csv_rows := by
    rw [hrows]
    exact List.mem_singleton.mpr rfl
  refine ⟨(csv_log_shape.2 _).1, hmem, ?_⟩
  exact ((csv_log_shape.2 _).2 _ hmem).1

/-- C10: `format_timestamp` renders its input modulo 24 hours: the
rendered `HH:MM:SS.mmm` quadruple always represents `t % 86400000`
milliseconds (with in-range components), so for `t ≥ 86400000` ms the
output no longer represents the actual elapsed time. -/
theorem format_timestamp_drops_days (t : ℕ) :
    format_timestamp t = format_timestamp (t % 86400000) ∧
    (format_timestamp t).1 * 3600000 + (format_timestamp t).2.1 * 60000 +
      (format_timestamp t).2.2.1 * 1000 + (format_timestamp t).2.2.2 = t % 86400000 ∧
    (format_timestamp t).1 < 24 ∧ (format_timestamp t).2.1 < 60 ∧
    (format_timestamp t).2.2.1 < 60 ∧ (format_timestamp t).2.2.2 < 1000 ∧
    (86400000 ≤ t →
      (format_timestamp t).1 * 3600000 + (format_timestamp t).2.1 * 60000 +
        (format_timestamp t).2.2.1 * 1000 + (format_timestamp t).2.2.2 ≠ t) := by
  unfold format_timestamp
  simp only [Prod.mk.injEq]
  refine ⟨⟨?_, ?_, ?_, ?_⟩, ?_, ?_, ?_, ?_, ?_, ?_⟩ <;> omega

theorem format_timestamp_drops_days_witness :
    86400000 ≤ 90000000 ∧
    (format_timestamp 90000000).1 * 3600000 + (format_timestamp 90000000).2.1 * 60000 +
      (format_timestamp 90000000).2.2.1 * 1000 + (format_timestamp 90000000).2.2.2
      ≠ 90000000 :=
  ⟨by norm_num, (format_timestamp_drops_days 90000000).2.2.2.2.2.2 (by norm_num)⟩
